import Mathlib

/-!
Verification of the `manifest-exists` rule of the sonar repository
(src/lib/rules/manifest-exists/manifest-exists.ts).

The rule is a per-document stateful observer: a boolean `manifestIsSpecified`,
an element handler `manifestExists` fired on every `link` element, and a
traversal-end handler `manifestWasSpecified`.  We embed the handlers as pure
Lean functions.  The element handler is parameterised by a fetch oracle
`fetch : String → FetchResult` standing for `context.fetchContent`; its result
records the new state, the findings reported to `context.report` (in order),
and the URLs passed to the fetcher (in order), so that "no fetch is attempted"
is observable.
-/

namespace Sonar

/-- An HTML element as far as the rule reads it: `getAttribute 'rel'` and
`getAttribute 'href'` (`none` models a `null` return for an absent
attribute).  The `id` field distinguishes otherwise equal elements. -/
structure Element where
  id : Nat
  rel : Option String
  href : Option String
deriving DecidableEq, Repr

/-- The `ElementFoundEvent` delivered by the scanner: the element and the
document resource (base URL). -/
structure ElementFoundEvent where
  element : Element
  resource : String
deriving DecidableEq, Repr

/-- One call to `context.report resource element message`.  `none` in the
first two components models a literal `null` argument. -/
structure Finding where
  resource : Option String
  element : Option Element
  message : String
deriving DecidableEq, Repr

/-- Outcome of `context.fetchContent`: either the promise resolves with a
`statusCode : number | null`, or it rejects (any thrown failure). -/
inductive FetchResult where
  | success (statusCode : Option Int)
  | failure
deriving DecidableEq, Repr

/-- Result of one invocation of the element handler: the value of
`manifestIsSpecified` afterwards, the findings reported during the
invocation, and the URLs handed to `context.fetchContent`. -/
structure HandlerResult where
  state : Bool
  findings : List Finding
  fetched : List String
deriving DecidableEq, Repr

namespace NodeUrl

/-- Modelled from the spec: the repository calls Node's `url` module, which is
not part of this repository's sources.  A character allowed in a URL scheme
after its leading letter. -/
def isSchemeTailChar (c : Char) : Bool :=
  c.isAlphanum || c == '+' || c == '-' || c == '.'

/-- Modelled from the spec: scans for a `:` terminating a run of scheme
characters. -/
def hasSchemeColon : List Char → Bool
  | [] => false
  | c :: rest =>
    if c == ':' then true
    else if isSchemeTailChar c then hasSchemeColon rest
    else false

/-- Modelled from the spec: `url.parse(s).protocol` is non-null exactly when
`s` starts with an explicit scheme component — a letter followed by scheme
characters and a colon. -/
def hasProtocol (s : String) : Bool :=
  match s.toList with
  | [] => false
  | c :: rest => c.isAlpha && hasSchemeColon rest

/-- Modelled from the spec: an absolute URL split into scheme (without `:`),
authority (without `//`), path and query; the fragment is dropped. -/
structure ParsedURL where
  scheme : String
  authority : String
  path : String
  query : String
deriving DecidableEq, Repr

/-- Modelled from the spec: parse an absolute URL of the form
`scheme://authority/path?query#fragment`. -/
def parse (s : String) : Option ParsedURL :=
  let cs := s.toList
  let schemeCs := cs.takeWhile (fun c => c != ':')
  let rest := cs.dropWhile (fun c => c != ':')
  match rest with
  | ':' :: '/' :: '/' :: r2 =>
    let authCs := r2.takeWhile (fun c => c != '/' && c != '?' && c != '#')
    let r3 := r2.dropWhile (fun c => c != '/' && c != '?' && c != '#')
    let pq := r3.takeWhile (fun c => c != '#')
    let pathCs := pq.takeWhile (fun c => c != '?')
    let qCs := pq.dropWhile (fun c => c != '?')
    some ⟨String.mk schemeCs, String.mk authCs, String.mk pathCs, String.mk qCs⟩
  | _ => none

/-- Split a character list at every occurrence of `sep`, the first argument
accumulating the current segment in reverse. -/
def splitOnCharAux (sep : Char) : List Char → List Char → List String
  | cur, [] => [String.mk cur.reverse]
  | cur, c :: rest =>
    if c == sep then String.mk cur.reverse :: splitOnCharAux sep [] rest
    else splitOnCharAux sep (c :: cur) rest

/-- Join segments with `/` separators. -/
def joinSlash : List String → String
  | [] => ""
  | [s] => s
  | s :: rest => s ++ "/" ++ joinSlash rest

/-- Modelled from the spec: the `remove_dot_segments` pass of standard
relative-reference resolution, on a list of path segments. -/
def removeDotSegmentsAux : List String → List String → List String
  | out, [] => out.reverse
  | out, [s] =>
    if s == "." then ("" :: out).reverse
    else if s == ".." then ("" :: out.drop 1).reverse
    else (s :: out).reverse
  | out, s :: rest =>
    if s == "." then removeDotSegmentsAux out rest
    else if s == ".." then removeDotSegmentsAux (out.drop 1) rest
    else removeDotSegmentsAux (s :: out) rest

/-- Modelled from the spec: `remove_dot_segments` on an absolute path. -/
def removeDotSegments (p : String) : String :=
  match p.toList with
  | '/' :: rest =>
    "/" ++ joinSlash (removeDotSegmentsAux [] (splitOnCharAux '/' [] rest))
  | _ => p

/-- Modelled from the spec: the directory part of a path — everything up to
and including the last `/`, or `/` when the path has none. -/
def dirOf (p : String) : String :=
  let cs := (p.toList.reverse.dropWhile (fun c => c != '/')).reverse
  match cs with
  | [] => "/"
  | _ => String.mk cs

/-- Modelled from the spec: Node's `url.resolve(base, ref)` — standard
base-URL plus relative-reference resolution (scheme-relative, absolute-path
and relative-path references against an absolute base). -/
def resolve (base ref : String) : String :=
  if hasProtocol ref then ref
  else
    match parse base with
    | none => ref
    | some b =>
      match ref.toList with
      | [] => b.scheme ++ "://" ++ b.authority ++ b.path ++ b.query
      | '/' :: '/' :: _ => b.scheme ++ ":" ++ ref
      | '/' :: _ =>
        let pq := ref.toList.takeWhile (fun c => c != '#')
        let pathCs := pq.takeWhile (fun c => c != '?')
        let qCs := pq.dropWhile (fun c => c != '?')
        b.scheme ++ "://" ++ b.authority ++ removeDotSegments (String.mk pathCs)
          ++ String.mk qCs
      | '?' :: _ => b.scheme ++ "://" ++ b.authority ++ b.path ++ ref
      | _ =>
        let pq := ref.toList.takeWhile (fun c => c != '#')
        let pathCs := pq.takeWhile (fun c => c != '?')
        let qCs := pq.dropWhile (fun c => c != '?')
        b.scheme ++ "://" ++ b.authority
          ++ removeDotSegments (dirOf b.path ++ String.mk pathCs) ++ String.mk qCs

end NodeUrl

/-- The URL the rule fetches for a non-empty `href`: `href` itself when
`url.parse(manifestHref).protocol` is non-null, otherwise
`url.resolve(resource, manifestHref)` (lines 72–76 of the source). -/
def resolveManifestURL (resource href : String) : String :=
  if NodeUrl.hasProtocol href then href else NodeUrl.resolve resource href

/-- The element handler `manifestExists` (lines 36–99 of the source),
embedded as a pure function of the fetch oracle, the current
`manifestIsSpecified` state, and the event. -/
def manifestExists (fetch : String → FetchResult) (manifestIsSpecified : Bool)
    (data : ElementFoundEvent) : HandlerResult :=
  let element := data.element
  let resource := data.resource
  if element.rel = some "manifest" then
    if manifestIsSpecified then
      ⟨manifestIsSpecified,
        [⟨some resource, some element, "Web app manifest already specified"⟩], []⟩
    else
      match element.href with
      | none =>
        ⟨true, [⟨some resource, some element,
          "Web app manifest specified with invalid 'href'"⟩], []⟩
      | some manifestHref =>
        if manifestHref = "" then
          ⟨true, [⟨some resource, some element,
            "Web app manifest specified with invalid 'href'"⟩], []⟩
        else
          let manifestURL := resolveManifestURL resource manifestHref
          match fetch manifestURL with
          | FetchResult.success statusCode =>
            match statusCode with
            | some c =>
              if c ≠ 0 ∧ c ≠ 200 then
                ⟨true, [⟨some resource, some element,
                  "Web app manifest file could not be fetched (status code: "
                    ++ toString c ++ ")"⟩], [manifestURL]⟩
              else ⟨true, [], [manifestURL]⟩
            | none => ⟨true, [], [manifestURL]⟩
          | FetchResult.failure =>
            ⟨true, [⟨some resource, some element,
              "Web app manifest file request failed"⟩], [manifestURL]⟩
  else ⟨manifestIsSpecified, [], []⟩

/-- The traversal-end handler `manifestWasSpecified` (lines 26–34 of the
source): reads the state and reports when no manifest was specified. -/
def manifestWasSpecified (manifestIsSpecified : Bool) : List Finding :=
  if manifestIsSpecified then []
  else [⟨none, none, "Web app manifest not specified"⟩]

/-- One step of a document traversal: run the element handler on the current
state, accumulate its findings. -/
def stepEvent (fetch : String → FetchResult) (acc : Bool × List Finding)
    (ev : ElementFoundEvent) : Bool × List Finding :=
  let r := manifestExists fetch acc.1 ev
  (r.state, acc.2 ++ r.findings)

/-- Run the element handler over a list of events, threading the state and
accumulating findings. -/
def runElements (fetch : String → FetchResult) (acc : Bool × List Finding)
    (l : List ElementFoundEvent) : Bool × List Finding :=
  l.foldl (stepEvent fetch) acc

/-- A whole document evaluation: state starts `false`, every `link` event is
handled in order, then the traversal-end handler fires.  Returns the final
state and all findings in report order. -/
def runTraversal (fetch : String → FetchResult) (l : List ElementFoundEvent) :
    Bool × List Finding :=
  let p := runElements fetch (false, []) l
  (p.1, p.2 ++ manifestWasSpecified p.1)

/-! ### Helper lemmas -/

theorem manifestExists_not_manifest (fetch : String → FetchResult) (s : Bool)
    (ev : ElementFoundEvent) (h : ev.element.rel ≠ some "manifest") :
    manifestExists fetch s ev = ⟨s, [], []⟩ := by
  unfold manifestExists
  simp [h]

theorem manifestExists_state_eq (fetch : String → FetchResult) (s : Bool)
    (ev : ElementFoundEvent) :
    (manifestExists fetch s ev).state =
      (s || decide (ev.element.rel = some "manifest")) := by
  unfold manifestExists
  by_cases h : ev.element.rel = some "manifest" <;> cases s <;> simp [h] <;>
    (repeat' split) <;> rfl

theorem runElements_append (fetch : String → FetchResult) (acc : Bool × List Finding)
    (l1 l2 : List ElementFoundEvent) :
    runElements fetch acc (l1 ++ l2) = runElements fetch (runElements fetch acc l1) l2 := by
  simp [runElements, List.foldl_append]

theorem runElements_skip (fetch : String → FetchResult) (l : List ElementFoundEvent)
    (h : ∀ e ∈ l, e.element.rel ≠ some "manifest") (acc : Bool × List Finding) :
    runElements fetch acc l = acc := by
  induction l generalizing acc with
  | nil => rfl
  | cons ev rest ih =>
    have h1 := h ev (List.mem_cons_self ev rest)
    have hstep : stepEvent fetch acc ev = acc := by
      simp [stepEvent, manifestExists_not_manifest fetch acc.1 ev h1]
    show runElements fetch (stepEvent fetch acc ev) rest = acc
    rw [hstep]
    exact ih (fun e he => h e (List.mem_cons_of_mem ev he)) acc

theorem runElements_state (fetch : String → FetchResult) (l : List ElementFoundEvent)
    (s : Bool) (fs : List Finding) :
    (runElements fetch (s, fs) l).1 =
      (s || l.any (fun e => decide (e.element.rel = some "manifest"))) := by
  induction l generalizing s fs with
  | nil => simp [runElements]
  | cons ev rest ih =>
    show (runElements fetch
      ((manifestExists fetch s ev).state, fs ++ (manifestExists fetch s ev).findings) rest).1 = _
    rw [ih, manifestExists_state_eq]
    simp [List.any_cons, Bool.or_assoc]

theorem runTraversal_sandwich (fetch : String → FetchResult)
    (l1 l2 : List ElementFoundEvent) (ev : ElementFoundEvent)
    (h1 : ∀ e ∈ l1, e.element.rel ≠ some "manifest")
    (h2 : ∀ e ∈ l2, e.element.rel ≠ some "manifest")
    (r : HandlerResult) (hev : manifestExists fetch false ev = r)
    (hstate : r.state = true) :
    runTraversal fetch (l1 ++ ev :: l2) = (true, r.findings) := by
  have e0 : runElements fetch (false, []) (l1 ++ ev :: l2) =
      runElements fetch (stepEvent fetch (false, []) ev) l2 := by
    rw [runElements_append, runElements_skip fetch l1 h1]
    rfl
  have e1 : stepEvent fetch (false, []) ev = (true, r.findings) := by
    simp [stepEvent, hev, hstate]
  unfold runTraversal
  rw [e0, e1, runElements_skip fetch l2 h2]
  simp [manifestWasSpecified]

theorem me_invalid_href (fetch : String → FetchResult) (ev : ElementFoundEvent)
    (hrel : ev.element.rel = some "manifest")
    (hbad : ev.element.href = none ∨ ev.element.href = some "") :
    manifestExists fetch false ev =
      ⟨true, [⟨some ev.resource, some ev.element,
        "Web app manifest specified with invalid 'href'"⟩], []⟩ := by
  unfold manifestExists
  rcases hbad with hb | hb <;> simp [hrel, hb]

theorem me_fetched (fetch : String → FetchResult) (ev : ElementFoundEvent)
    (href : String) (hrel : ev.element.rel = some "manifest")
    (hhref : ev.element.href = some href) (hne : href ≠ "") :
    (manifestExists fetch false ev).fetched = [resolveManifestURL ev.resource href] := by
  unfold manifestExists
  rcases hf : fetch (resolveManifestURL ev.resource href) with sc | _
  · rcases sc with _ | c
    · simp [hrel, hhref, hne, hf]
    · by_cases hc : c ≠ 0 ∧ c ≠ 200 <;> simp [hrel, hhref, hne, hf, hc]
  · simp [hrel, hhref, hne, hf]

/-! ### Concrete fixtures used by witnesses and counterexamples -/

/-- A concrete first manifest event. -/
def ev0 : ElementFoundEvent :=
  ⟨⟨0, some "manifest", some "site.webmanifest"⟩, "https://example.com/"⟩

/-- A concrete event whose `rel` is the case variant "Manifest". -/
def evOther : ElementFoundEvent :=
  ⟨⟨1, some "Manifest", some "m.json"⟩, "https://example.com/"⟩

/-- A concrete manifest event with an empty `href`. -/
def evEmptyHref : ElementFoundEvent :=
  ⟨⟨2, some "manifest", some ""⟩, "https://example.com/"⟩

/-- A concrete manifest event with no `href` attribute. -/
def evNoHref : ElementFoundEvent :=
  ⟨⟨3, some "manifest", none⟩, "https://example.com/"⟩

/-- A fetch oracle resolving with status code 0. -/
def fetchZero : String → FetchResult := fun _ => FetchResult.success (some 0)

/-- A fetch oracle resolving with status code 200. -/
def fetch200 : String → FetchResult := fun _ => FetchResult.success (some 200)

/-- A fetch oracle resolving with status code 404. -/
def fetch404 : String → FetchResult := fun _ => FetchResult.success (some 404)

/-- A fetch oracle that always rejects. -/
def fetchFail : String → FetchResult := fun _ => FetchResult.failure

/-! ### Claims -/

/-- C1 (amended): for the first manifest element with a valid `href`, when
the fetch resolves with status code `code`, the handler reports exactly one
finding whose message interpolates the literal code whenever the code is
non-null, non-zero and not 200, and reports nothing when the code is null,
zero or 200.  (The zero case is the amendment: the source guards with the
JS-truthiness test `statusCode && statusCode !== 200`, so a status code of 0
reports nothing even though it is non-null and not 200.) -/
theorem C1_status_code_findings (fetch : String → FetchResult)
    (ev : ElementFoundEvent) (href : String) (code : Option Int)
    (hrel : ev.element.rel = some "manifest")
    (hhref : ev.element.href = some href) (hne : href ≠ "")
    (hfetch : fetch (resolveManifestURL ev.resource href) = FetchResult.success code) :
    (manifestExists fetch false ev).findings =
      match code with
      | none => []
      | some c =>
        if c ≠ 0 ∧ c ≠ 200 then
          [⟨some ev.resource, some ev.element,
            "Web app manifest file could not be fetched (status code: "
              ++ toString c ++ ")"⟩]
        else [] := by
  unfold manifestExists
  rcases code with _ | c
  · simp [hrel, hhref, hne, hfetch]
  · by_cases hc : c ≠ 0 ∧ c ≠ 200 <;> simp [hrel, hhref, hne, hfetch, hc]

/-- C1 counterexample: a fetch resolving with status code 0 — non-null and
not equal to 200 — produces no finding at all, because the source tests
JS truthiness rather than non-nullness. -/
theorem C1_counterexample :
    ev0.element.rel = some "manifest" ∧
    fetchZero (resolveManifestURL ev0.resource "site.webmanifest") =
      FetchResult.success (some 0) ∧
    some (0 : Int) ≠ (none : Option Int) ∧ (0 : Int) ≠ 200 ∧
    (manifestExists fetchZero false ev0).findings = [] := by
  decide

/-- C1 witness: the amended theorem applied at status code 404 yields the
literally interpolated message. -/
theorem C1_witness :
    (manifestExists fetch404 false ev0).findings =
      [⟨some "https://example.com/", some ⟨0, some "manifest", some "site.webmanifest"⟩,
        "Web app manifest file could not be fetched (status code: 404)"⟩] :=
  (C1_status_code_findings fetch404 ev0 "site.webmanifest" (some 404)
    rfl rfl (by decide) rfl).trans (by decide)

/-- C2: a traversal whose only manifest element has a present non-empty
`href` and whose fetch resolves with status 200 reports zero findings over
the whole evaluation. -/
theorem C2_single_valid_manifest (fetch : String → FetchResult)
    (l1 l2 : List ElementFoundEvent) (ev : ElementFoundEvent) (href : String)
    (h1 : ∀ e ∈ l1, e.element.rel ≠ some "manifest")
    (h2 : ∀ e ∈ l2, e.element.rel ≠ some "manifest")
    (hrel : ev.element.rel = some "manifest")
    (hhref : ev.element.href = some href) (hne : href ≠ "")
    (hfetch : fetch (resolveManifestURL ev.resource href) =
      FetchResult.success (some 200)) :
    runTraversal fetch (l1 ++ ev :: l2) = (true, []) := by
  have hev : manifestExists fetch false ev =
      ⟨true, [], [resolveManifestURL ev.resource href]⟩ := by
    unfold manifestExists
    simp [hrel, hhref, hne, hfetch]
  exact runTraversal_sandwich fetch l1 l2 ev h1 h2 _ hev rfl

/-- C2 witness at a concrete one-element traversal. -/
theorem C2_witness : runTraversal fetch200 [ev0] = (true, []) :=
  C2_single_valid_manifest fetch200 [] [] ev0 "site.webmanifest"
    (by simp) (by simp) rfl rfl (by decide) rfl

/-- C3: when no element with `rel = "manifest"` is seen, the traversal-end
handler reports exactly one finding with null resource, null element and
message "Web app manifest not specified"; when at least one was seen,
regardless of validity, it reports nothing. -/
theorem C3_traversal_end (fetch : String → FetchResult)
    (l : List ElementFoundEvent) :
    ((∀ e ∈ l, e.element.rel ≠ some "manifest") →
      manifestWasSpecified (runElements fetch (false, []) l).1 =
        [⟨none, none, "Web app manifest not specified"⟩]) ∧
    ((∃ e ∈ l, e.element.rel = some "manifest") →
      manifestWasSpecified (runElements fetch (false, []) l).1 = []) := by
  constructor
  · intro h
    rw [runElements_skip fetch l h]
    rfl
  · rintro ⟨e, he, hrel⟩
    have hstate : (runElements fetch (false, []) l).1 = true := by
      rw [runElements_state]
      simp only [Bool.false_or, List.any_eq_true, decide_eq_true_eq]
      exact ⟨e, he, hrel⟩
    rw [hstate]
    rfl

/-- C3 witness: concrete traversals without and with a manifest element. -/
theorem C3_witness :
    manifestWasSpecified (runElements fetchZero (false, []) [evOther]).1 =
      [⟨none, none, "Web app manifest not specified"⟩] ∧
    manifestWasSpecified (runElements fetchZero (false, []) [ev0]).1 = [] :=
  ⟨(C3_traversal_end fetchZero [evOther]).1 (by decide),
   (C3_traversal_end fetchZero [ev0]).2 ⟨ev0, by decide, rfl⟩⟩

/-- C4: a manifest element arriving when the state is already true yields
exactly the duplicate finding and no fetch, with a result independent of the
element's `href` (the `href` is quantified over and never inspected). -/
theorem C4_duplicate_declaration (fetch : String → FetchResult)
    (ev : ElementFoundEvent) (hrel : ev.element.rel = some "manifest") :
    manifestExists fetch true ev =
      ⟨true, [⟨some ev.resource, some ev.element,
        "Web app manifest already specified"⟩], []⟩ := by
  unfold manifestExists
  simp [hrel]

/-- C4 witness at a concrete duplicate event. -/
theorem C4_witness :
    manifestExists fetch200 true ev0 =
      ⟨true, [⟨some "https://example.com/",
        some ⟨0, some "manifest", some "site.webmanifest"⟩,
        "Web app manifest already specified"⟩], []⟩ :=
  (C4_duplicate_declaration fetch200 ev0 rfl).trans (by decide)

/-- C5: the state is set to true before the `href` check — a traversal whose
only manifest element has an absent or empty `href` yields the invalid-href
finding and no end-of-traversal "not specified" finding. -/
theorem C5_declared_before_href_check (fetch : String → FetchResult)
    (l1 l2 : List ElementFoundEvent) (ev : ElementFoundEvent)
    (h1 : ∀ e ∈ l1, e.element.rel ≠ some "manifest")
    (h2 : ∀ e ∈ l2, e.element.rel ≠ some "manifest")
    (hrel : ev.element.rel = some "manifest")
    (hbad : ev.element.href = none ∨ ev.element.href = some "") :
    (manifestExists fetch false ev).state = true ∧
    runTraversal fetch (l1 ++ ev :: l2) =
      (true, [⟨some ev.resource, some ev.element,
        "Web app manifest specified with invalid 'href'"⟩]) := by
  have hev := me_invalid_href fetch ev hrel hbad
  exact ⟨by rw [hev], runTraversal_sandwich fetch l1 l2 ev h1 h2 _ hev rfl⟩

/-- C5 witness: a one-element traversal whose manifest link has empty `href`. -/
theorem C5_witness :
    (manifestExists fetch200 false evEmptyHref).state = true ∧
    runTraversal fetch200 [evEmptyHref] =
      (true, [⟨some "https://example.com/", some ⟨2, some "manifest", some ""⟩,
        "Web app manifest specified with invalid 'href'"⟩]) := by
  have h := C5_declared_before_href_check fetch200 [] [] evEmptyHref
    (by simp) (by simp) rfl (Or.inr rfl)
  exact ⟨h.1, h.2.trans (by decide)⟩

/-- C6: a first-seen manifest element with absent or empty `href` yields
exactly the invalid-href finding and never calls the content fetcher, for
every fetch oracle. -/
theorem C6_invalid_href_no_fetch (fetch : String → FetchResult)
    (ev : ElementFoundEvent) (hrel : ev.element.rel = some "manifest")
    (hbad : ev.element.href = none ∨ ev.element.href = some "") :
    manifestExists fetch false ev =
      ⟨true, [⟨some ev.resource, some ev.element,
        "Web app manifest specified with invalid 'href'"⟩], []⟩ :=
  me_invalid_href fetch ev hrel hbad

/-- C6 witness at a concrete absent-`href` event. -/
theorem C6_witness :
    manifestExists fetchFail false evNoHref =
      ⟨true, [⟨some "https://example.com/", some ⟨3, some "manifest", none⟩,
        "Web app manifest specified with invalid 'href'"⟩], []⟩ :=
  (C6_invalid_href_no_fetch fetchFail evNoHref rfl (Or.inl rfl)).trans (by decide)

/-- C7: for a first-seen manifest element with a non-empty `href` the fetched
URL is exactly `resolveManifestURL`, which is `href` verbatim when `href`
carries an explicit scheme and the relative-reference resolution of `href`
against `resource` otherwise; the spec's concrete example resolves to
"https://example.com/app.manifest". -/
theorem C7_url_resolution (fetch : String → FetchResult)
    (ev : ElementFoundEvent) (href : String)
    (hrel : ev.element.rel = some "manifest")
    (hhref : ev.element.href = some href) (hne : href ≠ "") :
    (manifestExists fetch false ev).fetched =
      [resolveManifestURL ev.resource href] ∧
    (NodeUrl.hasProtocol href = true → resolveManifestURL ev.resource href = href) ∧
    (NodeUrl.hasProtocol href = false →
      resolveManifestURL ev.resource href = NodeUrl.resolve ev.resource href) ∧
    resolveManifestURL "https://example.com/page.html" "/app.manifest" =
      "https://example.com/app.manifest" :=
  ⟨me_fetched fetch ev href hrel hhref hne,
   fun h => by simp [resolveManifestURL, h],
   fun h => by simp [resolveManifestURL, h],
   by decide⟩

/-- C7 witness at a concrete relative `href`. -/
theorem C7_witness :
    (manifestExists fetch200 false ev0).fetched =
      [resolveManifestURL ev0.resource "site.webmanifest"] ∧
    resolveManifestURL "https://example.com/page.html" "/app.manifest" =
      "https://example.com/app.manifest" :=
  ⟨(C7_url_resolution fetch200 ev0 "site.webmanifest" rfl rfl (by decide)).1,
   (C7_url_resolution fetch200 ev0 "site.webmanifest" rfl rfl (by decide)).2.2.2⟩

/-- C8: a failing fetch is caught locally and converted into exactly one
request-failed finding; the state stays true, so the traversal-end handler
invoked on it reports nothing. -/
theorem C8_fetch_failure_caught (fetch : String → FetchResult)
    (ev : ElementFoundEvent) (href : String)
    (hrel : ev.element.rel = some "manifest")
    (hhref : ev.element.href = some href) (hne : href ≠ "")
    (hfail : fetch (resolveManifestURL ev.resource href) = FetchResult.failure) :
    manifestExists fetch false ev =
      ⟨true, [⟨some ev.resource, some ev.element,
        "Web app manifest file request failed"⟩],
        [resolveManifestURL ev.resource href]⟩ ∧
    manifestWasSpecified true = [] := by
  constructor
  · unfold manifestExists
    simp [hrel, hhref, hne, hfail]
  · rfl

/-- C8 witness with an always-rejecting fetch oracle. -/
theorem C8_witness :
    manifestExists fetchFail false ev0 =
      ⟨true, [⟨some "https://example.com/",
        some ⟨0, some "manifest", some "site.webmanifest"⟩,
        "Web app manifest file request failed"⟩],
        ["https://example.com/site.webmanifest"]⟩ ∧
    manifestWasSpecified true = [] := by
  have h := C8_fetch_failure_caught fetchFail ev0 "site.webmanifest"
    rfl rfl (by decide) rfl
  exact ⟨h.1.trans (by decide), h.2⟩

/-- C9: `manifestIsSpecified` is monotone — a handler invocation from a true
state leaves it true, and it stays true over every further event sequence;
the traversal-end handler only reads the state (it returns findings and no
state). -/
theorem C9_state_monotone (fetch : String → FetchResult) (ev : ElementFoundEvent)
    (l : List ElementFoundEvent) (fs : List Finding) :
    (manifestExists fetch true ev).state = true ∧
    (runElements fetch (true, fs) l).1 = true := by
  constructor
  · rw [manifestExists_state_eq]
    simp
  · rw [runElements_state]
    simp

/-- C10: every handler invocation reports at most one finding, for every
fetch oracle, state and event; and an element whose `rel` is not exactly
"manifest" (case variants included) causes no report, no fetch and no state
change. -/
theorem C10_at_most_one_finding (fetch : String → FetchResult) (s : Bool)
    (ev : ElementFoundEvent) :
    (manifestExists fetch s ev).findings.length ≤ 1 ∧
    (ev.element.rel ≠ some "manifest" → manifestExists fetch s ev = ⟨s, [], []⟩) := by
  constructor
  · unfold manifestExists
    by_cases h : ev.element.rel = some "manifest" <;>
      simp [h] <;> (repeat' split) <;> simp
  · exact manifestExists_not_manifest fetch s ev

/-- C10 witness: the case-variant `rel` value "Manifest" is inert. -/
theorem C10_witness :
    (manifestExists fetch200 false evOther).findings.length ≤ 1 ∧
    manifestExists fetch200 false evOther = ⟨false, [], []⟩ :=
  ⟨(C10_at_most_one_finding fetch200 false evOther).1,
   (C10_at_most_one_finding fetch200 false evOther).2 (by decide)⟩

end Sonar
